import Mathlib

/-!
Verification of the reconciliation core of the r2sync Obsidian plugin.

The definitions below are a shallow embedding of the TypeScript source:

* the path/key mapper and the sync operations come from the SyncManager class
  (getFileKey, getLocalPathFromKey, syncFile, syncAllFiles, downloadRemoteChanges);
* the object-store operations and the backup lifecycle come from the
  R2ServiceObsidian class (uploadFile, downloadFile, listFiles, createBackup,
  listBackups, cleanupOldBackups);
* the debounced scheduler comes from the plugin class (debouncedSync).

Modelling conventions:

* The remote store is an association list of (key, body) pairs; put prepends,
  and downloadFile finds the first matching key, so a later put shadows an
  earlier one at the same key.
* JavaScript string truthiness (used by the source in several guards, e.g.
  "if (remoteContent)") is modelled as inequality with the empty string.
* String.drop drops characters while JavaScript substring counts UTF-16 units;
  on the ASCII paths exercised here the two coincide.
* Promise-returning collaborator calls are modelled by passing their outcome
  in as a parameter (a Bool for uploads, an Option for downloads); a thrown
  rejection is a distinguished outcome where the source catches it.
-/

namespace R2Sync

/-- A vault file as the sync manager sees it: vault-relative path,
base name and extension. -/
structure TFile where
  path : String
  name : String
  ext : String
  deriving DecidableEq, Repr

/-- JavaScript String.prototype.startsWith, modelled on the character
lists underlying Lean strings (the source paths are ASCII, where UTF-16
units and characters coincide). -/
def strStartsWith (s pre : String) : Bool :=
  pre.data.isPrefixOf s.data

/-- JavaScript String.prototype.endsWith, modelled on character lists. -/
def strEndsWith (s suf : String) : Bool :=
  suf.data.isSuffixOf s.data

/-- JavaScript String.prototype.substring(n), i.e. drop the first n
units, modelled on character lists. -/
def strDrop (s : String) (n : Nat) : String :=
  String.mk (s.data.drop n)

/-- Split a character list at every occurrence of the separator. -/
def splitOnChar (sep : Char) (l : List Char) : List (List Char) :=
  l.foldr (fun c acc =>
    if c = sep then [] :: acc
    else match acc with
      | [] => [[c]]
      | h :: t => (c :: h) :: t) [[]]

/-- JavaScript String.prototype.split with a one-character separator. -/
def strSplitOnChar (sep : Char) (s : String) : List String :=
  (splitOnChar sep s.data).map String.mk

/-- Array.prototype.join with the slash separator. -/
def joinSlash : List String → String
  | [] => ""
  | [x] => x
  | x :: xs => x ++ "/" ++ joinSlash xs

/-- JavaScript `settings.baseFolder || vaultName`: an empty configured base
folder falls back to the vault name (both getFileKey and getLocalPathFromKey
start with this line). -/
def effBase (configured vaultName : String) : String :=
  if configured = "" then vaultName else configured

/-- SyncManager.getFileKey: maps a vault file to its remote object key. -/
def getFileKey (vaultName configured : String) (file : TFile) : String :=
  let baseFolder := effBase configured vaultName
  if baseFolder ≠ "" ∧ strStartsWith file.path (baseFolder ++ "/") = true then
    strDrop file.path (baseFolder.length + 1)
  else if baseFolder ≠ "" ∧ file.path = baseFolder then
    file.name
  else if baseFolder ≠ "" then
    baseFolder ++ "/" ++ file.path
  else
    file.path

/-- SyncManager.getLocalPathFromKey: maps a remote object key back to a
vault path. -/
def getLocalPathFromKey (vaultName configured : String) (key : String) : String :=
  let baseFolder := effBase configured vaultName
  if strStartsWith key (baseFolder ++ "/") = true then
    strDrop key (baseFolder.length + 1)
  else if key = baseFolder then
    ""
  else
    key

/-- The remote object store: an association list of (key, body). -/
abbrev Store := List (String × String)

/-- PutObjectCommand: a later put shadows an earlier object at the same key. -/
def putObject (store : Store) (key body : String) : Store :=
  (key, body) :: store

/-- R2ServiceObsidian.downloadFile: GetObjectCommand; none models both a
missing object and a failed request (the source returns null for either). -/
def downloadFile (store : Store) (key : String) : Option String :=
  (store.find? (fun kv => kv.1 == key)).map (fun kv => kv.2)

/-- R2ServiceObsidian.listFiles: ListObjectsV2Command with the given Prefix;
returns the keys whose raw string starts with the prefix. -/
def listFiles (store : Store) (pfx : String) : List String :=
  (store.filter (fun kv => strStartsWith kv.1 pfx)).map (fun kv => kv.1)

/-- The body written by createBackup:
JSON.stringify of the record with timestamp, folderPath and type fields. -/
def markerBody (timestamp folderPath : String) : String :=
  "\x7b\"timestamp\":\"" ++ timestamp ++ "\",\"folderPath\":\"" ++ folderPath ++
    "\",\"type\":\"backup_marker\"\x7d"

/-- R2ServiceObsidian.createBackup: puts the marker body at
key backups/timestamp/folderPath. -/
def createBackup (store : Store) (folderPath timestamp : String) : Store :=
  putObject store ("backups/" ++ timestamp ++ "/" ++ folderPath)
    (markerBody timestamp folderPath)

/-- JSON.parse specialised to the exact record shape written by markerBody,
extracting the timestamp and folderPath fields; any other content fails to
parse (none), which listBackups silently skips. -/
def parseMarker (content : String) : Option (String × String) :=
  match strSplitOnChar '\x22' content with
  | [l, f1, c1, t, s1, f2, c2, fp, s2, f3, c3, tyv, r] =>
      if l = "\x7b" ∧ f1 = "timestamp" ∧ c1 = ":" ∧ s1 = "," ∧ f2 = "folderPath" ∧
          c2 = ":" ∧ s2 = "," ∧ f3 = "type" ∧ c3 = ":" ∧ tyv = "backup_marker" ∧
          r = "\x7d" then
        some (t, fp)
      else none
  | _ => none

/-- Insertion step for the descending sort in listBackups. -/
def insertDesc (x : String × String) : List (String × String) → List (String × String)
  | [] => [x]
  | y :: ys => if x.1 < y.1 then y :: insertDesc x ys else x :: y :: ys

/-- The sort in listBackups: descending by timestamp
(localeCompare is modelled as code-point order). -/
def sortBackupsDesc (l : List (String × String)) : List (String × String) :=
  l.foldr insertDesc []

/-- R2ServiceObsidian.listBackups: lists keys under backups/, keeps only the
keys that END with the string backup_marker, downloads and parses each
surviving marker (skipping download failures, empty bodies and parse
failures), and sorts the entries by timestamp descending. -/
def listBackups (store : Store) : List (String × String) :=
  let keys := listFiles store "backups/"
  let backups := keys.foldl (fun acc k =>
    if strEndsWith k "backup_marker" = true then
      match downloadFile store k with
      | some content =>
          if content ≠ "" then
            match parseMarker content with
            | some entry => acc ++ [entry]
            | none => acc
          else acc
      | none => acc
    else acc) []
  sortBackupsDesc backups

/-- R2ServiceObsidian.cleanupOldBackups, applied to the timestamps of the
backups returned by listBackups. Each element is the time value of
new Date(backup.timestamp) in milliseconds; none models an unparseable
timestamp (NaN), whose comparison with the cutoff is always false. The
cutoff is now minus retentionDays days; the result is the number of
backups deleted (each one via deleteBackup). -/
def cleanupOldBackups (retentionDays : Int) (now : Int) (backups : List (Option Int)) : Nat :=
  let cutoff := now - retentionDays * 86400000
  (backups.filter (fun b => match b with
    | some t => decide (t < cutoff)
    | none => false)).length

/-- The local vault: files as (path, content) pairs plus a set of folder
paths. A path is either a file, a folder, or absent. -/
structure Vault where
  files : List (String × String)
  folders : List String
  deriving DecidableEq, Repr

/-- Content of the file at a path, if a file is there. -/
def vaultFile (v : Vault) (p : String) : Option String :=
  (v.files.find? (fun kv => kv.1 == p)).map (fun kv => kv.2)

/-- What vault.getAbstractFileByPath distinguishes: a TFile, a TFolder,
or null. -/
inductive VaultEntry
  | file (content : String)
  | folder
  deriving DecidableEq, Repr

/-- vault.getAbstractFileByPath. -/
def getAbstractFileByPath (v : Vault) (p : String) : Option VaultEntry :=
  match vaultFile v p with
  | some c => some (VaultEntry.file c)
  | none => if v.folders.contains p then some VaultEntry.folder else none

/-- vault.modify: replace the content of an existing file. -/
def modifyFile (v : Vault) (p c : String) : Vault :=
  { v with files := v.files.map (fun kv => if kv.1 == p then (kv.1, c) else kv) }

/-- vault.create restricted to a fresh path. -/
def createFile (v : Vault) (p c : String) : Vault :=
  { v with files := v.files ++ [(p, c)] }

/-- vault.createFolder. -/
def createFolder (v : Vault) (p : String) : Vault :=
  { v with folders := v.folders ++ [p] }

/-- The create-local step of downloadRemoteChanges: split the path on "/",
and when it has a directory part whose path does not exist yet, create that
folder first; then create the file. -/
def createWithParents (v : Vault) (p c : String) : Vault :=
  let parts := strSplitOnChar '/' p
  let v1 :=
    if parts.length > 1 then
      let dirPath := joinSlash parts.dropLast
      if getAbstractFileByPath v dirPath = none then createFolder v dirPath else v
    else v
  createFile v1 p c

/-- One iteration of the loop in SyncManager.downloadRemoteChanges, for a
single listed remote key. none models a thrown error: when the mapped path
is held by a folder, vault.create rejects, which the surrounding catch turns
into an aborted pass (vault.create has no other failure mode in this model).
Keys under backups/ are skipped. The guards on the downloaded content mirror
the source's truthiness test, so empty content is treated like an absent
object. -/
def processRemoteKey (vaultName configured : String) (store : Store) (v : Vault)
    (remoteKey : String) : Option Vault :=
  if strStartsWith remoteKey "backups/" = true then some v
  else
    let localPath := getLocalPathFromKey vaultName configured remoteKey
    match getAbstractFileByPath v localPath with
    | some (VaultEntry.file localContent) =>
        match downloadFile store remoteKey with
        | some rc =>
            if rc ≠ "" then
              if rc ≠ localContent then some (modifyFile v localPath rc) else some v
            else some v
        | none => some v
    | some VaultEntry.folder =>
        match downloadFile store remoteKey with
        | some rc => if rc ≠ "" then none else some v
        | none => some v
    | none =>
        match downloadFile store remoteKey with
        | some rc =>
            if rc ≠ "" then some (createWithParents v localPath rc) else some v
        | none => some v

/-- SyncManager.downloadRemoteChanges: list the remote keys under the
effective base folder and process each in turn; a thrown error aborts the
remaining iterations, is caught, and makes the operation return false while
the vault keeps the updates already applied. Returns (result, vault). -/
def downloadRemoteChanges (vaultName configured : String) (store : Store) (v : Vault) :
    Bool × Vault :=
  let baseFolder := effBase configured vaultName
  let remoteFiles := listFiles store baseFolder
  let res := remoteFiles.foldl (fun acc k =>
    if acc.2 = true then acc
    else
      match processRemoteKey vaultName configured store acc.1 k with
      | some vv => (vv, false)
      | none => (acc.1, true)) (v, false)
  (if res.2 = true then false else true, res.1)

/-- The SyncManager state observed by the claims: the private in-flight
guard, the mirrored settings.syncInProgress flag, settings.lastSyncTime, and
whether an object-store client was constructed (credentials present). -/
structure MgrState where
  syncInProgress : Bool
  settingsSyncInProgress : Bool
  lastSyncTime : String
  hasService : Bool
  deriving DecidableEq, Repr

/-- The finally block shared by the sync operations: clear both in-flight
flags on every exit path. -/
def clearGuards (m : MgrState) : MgrState :=
  { m with syncInProgress := false, settingsSyncInProgress := false }

/-- SyncManager.syncFile. readOk is the outcome of reading the file (false
models a thrown rejection, caught by the source), uploadOk the outcome of
r2Service.uploadFile, now the value of new Date().toISOString(). Returns
(returned value, final state, whether uploadFile was invoked). -/
def syncFile (m : MgrState) (readOk uploadOk : Bool) (now : String) :
    Bool × MgrState × Bool :=
  if m.syncInProgress = true ∨ m.hasService = false then
    (false, m, false)
  else if readOk = false then
    (false, clearGuards m, false)
  else if uploadOk = true then
    (true, clearGuards { m with lastSyncTime := now }, true)
  else
    (false, clearGuards m, true)

/-- The upload loop of SyncManager.syncAllFiles over its file list. Each
element is the outcome for one file: none means reading the file threw
(which aborts the loop into the catch block), some u means the read
succeeded and the upload returned u. Returns (successCount, threw). -/
def runUploads : List (Option Bool) → Nat → Nat × Bool
  | [], succCount => (succCount, false)
  | none :: _, succCount => (succCount, true)
  | some u :: rest, succCount => runUploads rest (if u then succCount + 1 else succCount)

/-- SyncManager.syncAllFiles, projected onto the manager state. The
download phase is elided here: downloadRemoteChanges catches its own errors
and touches neither lastSyncTime nor the guards, only the vault. After the
upload loop the source assigns lastSyncTime unconditionally and returns
whether successCount exceeds zero; a thrown error skips both and returns
false. Returns (returned value, final state, successCount). -/
def syncAllFiles (m : MgrState) (files : List (Option Bool)) (now : String) :
    Bool × MgrState × Nat :=
  if m.syncInProgress = true ∨ m.hasService = false then
    (false, m, 0)
  else
    let r := runUploads files 0
    if r.2 = true then
      (false, clearGuards m, r.1)
    else
      (decide (0 < r.1), clearGuards { m with lastSyncTime := now }, r.1)

/-- A concrete idle manager state with credentials configured and no
recorded sync time. -/
def m0 : MgrState :=
  { syncInProgress := false, settingsSyncInProgress := false,
    lastSyncTime := "", hasService := true }

/-- A concrete vault file named A, used by witnesses. -/
def fileA : TFile := { path := "A.md", name := "A.md", ext := "md" }

/-- A concrete vault file named B, used by witnesses. -/
def fileB : TFile := { path := "B.md", name := "B.md", ext := "md" }

/-- A scheduled timeout in the plugin: the captured token and the file the
callback closes over. -/
structure Timer where
  token : Nat
  file : TFile
  deriving DecidableEq, Repr

/-- The plugin's scheduler state: the debounceId counter and the single
pending timeout handle (syncTimeout). -/
structure SchedState where
  debounceId : Nat
  syncTimeout : Option Timer
  deriving DecidableEq, Repr

/-- R2SyncPlugin.debouncedSync: clear any pending timeout, advance the
token, and schedule a new timeout capturing the current token and file. -/
def debouncedSync (s : SchedState) (f : TFile) : SchedState :=
  let s1 : SchedState := { s with syncTimeout := none }
  let newId := s1.debounceId + 1
  { debounceId := newId, syncTimeout := some { token := newId, file := f } }

/-- Expiry of the pending timeout: the callback compares its captured token
with the current counter and invokes the single-file sync only when they
are equal, then clears syncTimeout. Returns the new state and the file the
sync action was invoked on, if any. -/
def fireTimer (s : SchedState) : SchedState × Option TFile :=
  match s.syncTimeout with
  | none => (s, none)
  | some t =>
      if t.token = s.debounceId then
        ({ s with syncTimeout := none }, some t.file)
      else
        ({ s with syncTimeout := none }, none)

/-- An observable event for the scheduler: a debouncedSync call, or the
expiry of the pending timeout. -/
inductive SchedEvent
  | sched (f : TFile)
  | fire
  deriving DecidableEq, Repr

/-- Run a sequence of scheduler events, collecting the files on which the
single-file sync action actually fired, in order. -/
def runSched : SchedState → List SchedEvent → SchedState × List TFile
  | s, [] => (s, [])
  | s, SchedEvent.sched f :: es => runSched (debouncedSync s f) es
  | s, SchedEvent.fire :: es =>
      let r := fireTimer s
      let rest := runSched r.1 es
      (rest.1, (match r.2 with | some f => [f] | none => []) ++ rest.2)

/-- A concrete initial scheduler state, used by witnesses. -/
def sched0 : SchedState := { debounceId := 0, syncTimeout := none }

/-- A concrete stale timer whose token does not match the counter of the
state it is fired in, used by witnesses. -/
def staleTimer : Timer := { token := 3, file := fileA }

/-- A concrete scheduler state with counter 5, used by witnesses. -/
def sched5 : SchedState := { debounceId := 5, syncTimeout := none }

/-! Theorems settling the claims. -/

/-- C1 is false on the code: with the non-empty base folder Notes and the
path Notes/a.md, which starts with Notes followed by a slash, the round
trip getLocalPathFromKey after getFileKey yields a.md, not Notes/a.md. -/
theorem c1_cex :
    strStartsWith "Notes/a.md" ("Notes" ++ "/") = true ∧ ("Notes" : String) ≠ "" ∧
    getLocalPathFromKey "Vault" "Notes"
      (getFileKey "Vault" "Notes" ⟨"Notes/a.md", "a.md", "md"⟩) ≠ "Notes/a.md" := by
  decide

/-- C1 (amended): for a non-empty base folder b and every path p that starts
with b followed by a slash, the round trip getLocalPathFromKey after
getFileKey returns the remainder of p after that prefix — the base-folder
relative path — rather than p itself, provided the remainder does not again
start with b followed by a slash and is not equal to b. -/
theorem c1_roundtrip_relative (vaultName b p n e : String)
    (hb : b ≠ "")
    (hp : strStartsWith p (b ++ "/") = true)
    (h1 : strStartsWith (strDrop p (b.length + 1)) (b ++ "/") = false)
    (h2 : strDrop p (b.length + 1) ≠ b) :
    getLocalPathFromKey vaultName b (getFileKey vaultName b ⟨p, n, e⟩) =
      strDrop p (b.length + 1) := by
  simp [getFileKey, getLocalPathFromKey, effBase, hb, hp, h1, h2]

/-- Witness for c1_roundtrip_relative at a concrete input. -/
theorem c1_roundtrip_relative_w :
    getLocalPathFromKey "Vault" "Notes"
      (getFileKey "Vault" "Notes" ⟨"Notes/a.md", "a.md", "md"⟩) =
      strDrop "Notes/a.md" ("Notes".length + 1) :=
  c1_roundtrip_relative "Vault" "Notes" "Notes/a.md" "a.md" "md"
    (by decide) (by decide) (by decide) (by decide)

/-- C2: the code has no special case for a retention of zero days — the
cutoff becomes now itself, so a backup whose timestamp parses to any moment
in the past is deleted and counted. Evaluated at the failing input: zero
retention days, now one day after the epoch, one backup at the epoch; the
code deletes it and returns 1, while the claim requires 0 deletions. -/
theorem c2_cleanup_zero_eval :
    cleanupOldBackups 0 86400000 [some 0] = 1 := by
  decide

/-- C3 is false on the code: a syncAllFiles run whose single upload fails
returns false (did not succeed), yet lastSyncTime is overwritten with the
current time, because the source assigns it unconditionally after the
upload loop. -/
theorem c3_cex :
    (syncAllFiles m0 [some false] "T").1 = false ∧
    (syncAllFiles m0 [some false] "T").2.1.lastSyncTime = "T" ∧
    m0.lastSyncTime = "" ∧ ("T" : String) ≠ "" := by
  decide

/-- C3 (amended): syncFile updates lastSyncTime only on success (any run
returning false leaves it unchanged); syncAllFiles leaves it unchanged on a
busy or missing-client rejection and when the upload loop is aborted by a
thrown error, but once the loop completes it sets lastSyncTime to the
current time regardless of how many uploads succeeded — even on a run that
returns false because zero uploads succeeded. -/
theorem c3_lastSyncTime_amended :
    (∀ (m : MgrState) (readOk uploadOk : Bool) (now : String),
        (syncFile m readOk uploadOk now).1 = false →
        (syncFile m readOk uploadOk now).2.1.lastSyncTime = m.lastSyncTime) ∧
    (∀ (m : MgrState) (files : List (Option Bool)) (now : String),
        (m.syncInProgress = true ∨ m.hasService = false) →
        (syncAllFiles m files now).2.1.lastSyncTime = m.lastSyncTime) ∧
    (∀ (m : MgrState) (files : List (Option Bool)) (now : String),
        m.syncInProgress = false → m.hasService = true →
        (runUploads files 0).2 = true →
        (syncAllFiles m files now).2.1.lastSyncTime = m.lastSyncTime) ∧
    (∀ (m : MgrState) (files : List (Option Bool)) (now : String),
        m.syncInProgress = false → m.hasService = true →
        (runUploads files 0).2 = false →
        (syncAllFiles m files now).2.1.lastSyncTime = now) := by
  refine ⟨?_, ?_, ?_, ?_⟩
  · intro m readOk uploadOk now h
    by_cases hg : m.syncInProgress = true ∨ m.hasService = false
    · simp [syncFile, hg]
    · cases readOk
      · simp [syncFile, hg, clearGuards]
      · cases uploadOk
        · simp [syncFile, hg, clearGuards]
        · exfalso; simp [syncFile, hg] at h
  · intro m files now hg
    simp [syncAllFiles, hg]
  · intro m files now h1 h2 hthrew
    simp [syncAllFiles, h1, h2, hthrew, clearGuards]
  · intro m files now h1 h2 hok
    simp [syncAllFiles, h1, h2, hok, clearGuards]

/-- Witness for c3_lastSyncTime_amended at a concrete input. -/
theorem c3_lastSyncTime_amended_w :
    (syncFile m0 true false "T").2.1.lastSyncTime = m0.lastSyncTime :=
  c3_lastSyncTime_amended.1 m0 true false "T" (by decide)

/-- C4 is false on the code: the remote object at key N/x.md is retrieved
with empty content, which differs from the local content, yet the local
file is left unmodified — the truthiness guard on the downloaded content
treats an empty body like an absent object, so no overwrite happens. -/
theorem c4_cex :
    downloadFile [("N/x.md", "")] "N/x.md" = some "" ∧
    ("" : String) ≠ "local" ∧
    (downloadRemoteChanges "V" "N" [("N/x.md", "")] ⟨[("x.md", "local")], []⟩).2 =
      ⟨[("x.md", "local")], []⟩ := by
  decide

/-- C4 (amended): during the download phase, for every listed remote key not
under backups/, with localPath its mapped path: when a local file exists at
localPath and the fetched remote content equals it, the vault is left
unchanged; when the contents differ and the remote content is non-empty,
the local file is overwritten with the remote content; when nothing exists
at localPath and non-empty remote content is retrieved, a local file is
created there with a missing parent folder created first (createWithParents);
and retrieved remote content that is the empty string is treated like an
absent object: nothing is modified or created. -/
theorem c4_download_phase_amended (vaultName configured : String) (store : Store)
    (v : Vault) (k : String) (hk : strStartsWith k "backups/" = false) :
    (∀ c, getAbstractFileByPath v (getLocalPathFromKey vaultName configured k) =
            some (VaultEntry.file c) →
        downloadFile store k = some c →
        processRemoteKey vaultName configured store v k = some v) ∧
    (∀ c rc, getAbstractFileByPath v (getLocalPathFromKey vaultName configured k) =
            some (VaultEntry.file c) →
        downloadFile store k = some rc → rc ≠ c → rc ≠ "" →
        processRemoteKey vaultName configured store v k =
          some (modifyFile v (getLocalPathFromKey vaultName configured k) rc)) ∧
    (∀ rc, getAbstractFileByPath v (getLocalPathFromKey vaultName configured k) = none →
        downloadFile store k = some rc → rc ≠ "" →
        processRemoteKey vaultName configured store v k =
          some (createWithParents v (getLocalPathFromKey vaultName configured k) rc)) ∧
    (downloadFile store k = some "" →
        processRemoteKey vaultName configured store v k = some v) := by
  refine ⟨?_, ?_, ?_, ?_⟩
  · intro c hf hd
    by_cases hc : c = ""
    · subst hc; simp [processRemoteKey, hk, hf, hd]
    · simp [processRemoteKey, hk, hf, hd, hc]
  · intro c rc hf hd hne hrc
    simp [processRemoteKey, hk, hf, hd, hne, hrc]
  · intro rc hnone hd hrc
    simp [processRemoteKey, hk, hnone, hd, hrc]
  · intro hd
    rcases hv : getAbstractFileByPath v (getLocalPathFromKey vaultName configured k) with
      _ | entry
    · simp [processRemoteKey, hk, hv, hd]
    · cases entry with
      | file c => simp [processRemoteKey, hk, hv, hd]
      | folder => simp [processRemoteKey, hk, hv, hd]

/-- Witness for c4_download_phase_amended at a concrete input. -/
theorem c4_download_phase_amended_w :
    processRemoteKey "V" "N" [("N/a/b.md", "hello")] ⟨[], []⟩ "N/a/b.md" =
      some (createWithParents ⟨[], []⟩ (getLocalPathFromKey "V" "N" "N/a/b.md") "hello") :=
  (c4_download_phase_amended "V" "N" [("N/a/b.md", "hello")] ⟨[], []⟩ "N/a/b.md"
    (by decide)).2.2.1 "hello" (by decide) (by decide) (by decide)

/-- C5: createBackup writes its marker at a key ending in folderPath, while
listBackups keeps only keys ending in the string backup_marker, so a marker
just created for the folder Notes is filtered out before its body is even
read, and listBackups returns the empty collection instead of one holding
the (timestamp, folderPath) entry. Evaluated at the failing input. -/
theorem c5_backup_marker_invisible :
    listBackups (createBackup [] "Notes" "2024-01-01T00-00-00-000Z") = [] := by
  decide

/-- C6 is false on the code: with an empty configured base folder the code
falls back to the vault name, so in a vault named Vault the key for the
path x.md is Vault/x.md rather than x.md, and the key Vault/x.md maps back
to the path x.md rather than to itself. -/
theorem c6_cex :
    getFileKey "Vault" "" ⟨"x.md", "x.md", "md"⟩ ≠ "x.md" ∧
    getLocalPathFromKey "Vault" "" "Vault/x.md" ≠ "Vault/x.md" := by
  decide

/-- C6 (amended): the empty configured base folder is replaced by the vault
name, so the mappings are the identity only when the vault name is empty as
well; in that case getFileKey is the identity on every path, and
getLocalPathFromKey is the identity on every key that does not start with a
slash. -/
theorem c6_empty_identity (p n e k : String) (hk : strStartsWith k "/" = false) :
    getFileKey "" "" ⟨p, n, e⟩ = p ∧ getLocalPathFromKey "" "" k = k := by
  have hpre : ("" ++ "/" : String) = "/" := rfl
  constructor
  · simp [getFileKey, effBase]
  · by_cases hk0 : k = ""
    · subst hk0; decide
    · simp [getLocalPathFromKey, effBase, hpre, hk, hk0]

/-- Witness for c6_empty_identity at a concrete input. -/
theorem c6_empty_identity_w :
    getFileKey "" "" ⟨"a/b.md", "b.md", "md"⟩ = "a/b.md" ∧
    getLocalPathFromKey "" "" "a/b.md" = "a/b.md" :=
  c6_empty_identity "a/b.md" "b.md" "md" "a/b.md" (by decide)

/-- C7 is false on the code: in a run where the first upload succeeds and
reading the second file throws, one upload succeeded during the pass, yet
syncAllFiles returns false because the thrown error routes the run into the
catch block. -/
theorem c7_cex :
    (syncAllFiles m0 [some true, none] "T").2.2 = 1 ∧
    (syncAllFiles m0 [some true, none] "T").1 = false := by
  decide

/-- C7 (amended): when the guard admits the run and the upload loop
completes without a thrown error, syncAllFiles returns true if and only if
at least one upload succeeded — partial failure alone never forces a false
return; but a run whose loop is aborted by a thrown error returns false
regardless of how many uploads had already succeeded. -/
theorem c7_return_iff_amended :
    (∀ (m : MgrState) (files : List (Option Bool)) (now : String),
        m.syncInProgress = false → m.hasService = true →
        (runUploads files 0).2 = false →
        ((syncAllFiles m files now).1 = true ↔ 0 < (runUploads files 0).1)) ∧
    (∀ (m : MgrState) (files : List (Option Bool)) (now : String),
        m.syncInProgress = false → m.hasService = true →
        (runUploads files 0).2 = true →
        (syncAllFiles m files now).1 = false) := by
  constructor
  · intro m files now h1 h2 hok
    simp [syncAllFiles, h1, h2, hok]
  · intro m files now h1 h2 hthrew
    simp [syncAllFiles, h1, h2, hthrew]

/-- Witness for c7_return_iff_amended at a concrete input. -/
theorem c7_return_iff_amended_w :
    (syncAllFiles m0 [some true] "T").1 = true ↔ 0 < (runUploads [some true] 0).1 :=
  c7_return_iff_amended.1 m0 [some true] "T" (by decide) (by decide) (by decide)

/-- C8: a syncFile call arriving while a pass is in flight, or while no
object-store client is configured, returns false with the manager state
exactly as it was — lastSyncTime untouched — and without invoking
uploadFile. -/
theorem c8_syncFile_fail_fast (m : MgrState) (readOk uploadOk : Bool) (now : String)
    (h : m.syncInProgress = true ∨ m.hasService = false) :
    syncFile m readOk uploadOk now = (false, m, false) := by
  unfold syncFile
  rw [if_pos h]

/-- Witness for c8_syncFile_fail_fast at a concrete input. -/
theorem c8_syncFile_fail_fast_w :
    syncFile { m0 with syncInProgress := true } true true "T" =
      (false, { m0 with syncInProgress := true }, false) :=
  c8_syncFile_fail_fast { m0 with syncInProgress := true } true true "T"
    (Or.inl (by decide))

/-- C9: for any burst of debouncedSync calls inside one quiet window —
modelled as a nonempty sequence of sched events followed by one timeout
expiry — the only single-file sync action that fires is the one for the
last scheduled file; every earlier scheduled action is superseded and never
runs. Moreover a timeout whose captured token differs from the current
counter is a no-op when it fires. -/
theorem c9_debounce_supersession :
    (∀ (s : SchedState) (init : List TFile) (a : TFile),
        (runSched s ((init ++ [a]).map SchedEvent.sched ++ [SchedEvent.fire])).2 = [a]) ∧
    (∀ (s : SchedState) (t : Timer), t.token ≠ s.debounceId →
        (fireTimer { s with syncTimeout := some t }).2 = none) := by
  constructor
  · intro s init a
    induction init generalizing s with
    | nil => simp [runSched, debouncedSync, fireTimer]
    | cons f rest ih =>
        simp only [List.cons_append, List.map_cons, runSched]
        exact ih (debouncedSync s f)
  · intro s t h
    simp [fireTimer, h]

/-- Witness for c9_debounce_supersession at a concrete input: events for
file A then file B inside the window, then expiry — only B fires; and a
stale token is a no-op. -/
theorem c9_debounce_supersession_w :
    (runSched sched0 (([fileA] ++ [fileB]).map SchedEvent.sched ++
        [SchedEvent.fire])).2 = [fileB] ∧
    (fireTimer { sched5 with syncTimeout := some staleTimer }).2 = none :=
  ⟨c9_debounce_supersession.1 sched0 [fileA] fileB,
   c9_debounce_supersession.2 sched5 staleTimer (by decide)⟩

end R2Sync
